import Mathlib

/-!
Shallow embedding of `internal/aghos/permission_windows.go` from
AdGuardHome: the bidirectional translation between 9-bit POSIX permission
triads and Windows access masks, the DACL-entry classification performed
by `stat`, and the control flow of `chmod`, `mkdir`, `openFile` and
`writeFile`.  Machine integers (`fs.FileMode`, `windows.ACCESS_MASK`,
both `uint32`) are modelled as `Nat`; every shift produced by the code
stays below bit 32, so no wrap-around modelling is required, and where a
Go expression truncates (`fm.Perm()` is `fm & 0o777`) the truncation is
written out explicitly.
-/

set_option maxRecDepth 400000

namespace Aghos

/-- Constants reflecting the UNIX permission bits
(permission_windows.go, lines 254-266). -/
def ownerWrite : Nat := 0b010000000

/-- UNIX group-write bit. -/
def groupWrite : Nat := 0b000010000

/-- UNIX world-write bit. -/
def worldWrite : Nat := 0b000000010

/-- UNIX owner-read bit. -/
def ownerRead : Nat := 0b100000000

/-- UNIX group-read bit. -/
def groupRead : Nat := 0b000100000

/-- UNIX world-read bit. -/
def worldRead : Nat := 0b000000100

/-- UNIX owner triad mask. -/
def ownerAll : Nat := 0b111000000

/-- UNIX group triad mask. -/
def groupAll : Nat := 0b000111000

/-- UNIX world triad mask. -/
def worldAll : Nat := 0b000000111

/-- Shift amount taking the owner triad to the generic-rights bits. -/
def genericOwner : Nat := 23

/-- Shift amount taking the group triad to the generic-rights bits. -/
def genericGroup : Nat := 26

/-- Shift amount taking the world triad to the generic-rights bits. -/
def genericWorld : Nat := 29

/-- Shift amount taking the owner write bit to the DELETE bit. -/
def deleteOwner : Nat := 9

/-- Shift amount taking the group write bit to the DELETE bit. -/
def deleteGroup : Nat := 12

/-- Shift amount taking the world write bit to the DELETE bit. -/
def deleteWorld : Nat := 15

/-- Shift amount for the owner list-directory augmentation. -/
def listDirOwner : Nat := 7

/-- Shift amount for the group list-directory augmentation. -/
def listDirGroup : Nat := 10

/-- Shift amount for the world list-directory augmentation. -/
def listDirWorld : Nat := 13

/-- Shift amount for the owner traverse augmentation. -/
def traverseOwner : Nat := 2

/-- Shift amount for the group traverse augmentation. -/
def traverseGroup : Nat := 5

/-- Shift amount for the world traverse augmentation. -/
def traverseWorld : Nat := 8

/-- Shift amount for the owner write-extended-attributes augmentation;
note the Go code shifts the owner write bit RIGHT by this amount. -/
def writeEAOwner : Nat := 2

/-- Shift amount for the group write-extended-attributes augmentation. -/
def writeEAGroup : Nat := 1

/-- Shift amount for the world write-extended-attributes augmentation. -/
def writeEAWorld : Nat := 4

/-- Shift amount for the owner delete-child augmentation. -/
def deleteChildOwner : Nat := 1

/-- Shift amount for the group delete-child augmentation. -/
def deleteChildGroup : Nat := 4

/-- Shift amount for the world delete-child augmentation. -/
def deleteChildWorld : Nat := 7

/-- The Windows generic read right (`windows.GENERIC_READ`). -/
def GENERIC_READ : Nat := 0x80000000

/-- The Windows generic write right (`windows.GENERIC_WRITE`). -/
def GENERIC_WRITE : Nat := 0x40000000

/-- The Windows generic execute right (`windows.GENERIC_EXECUTE`). -/
def GENERIC_EXECUTE : Nat := 0x20000000

/-- The Windows DELETE standard right (`windows.DELETE`). -/
def DELETE : Nat := 0x00010000

/-- `fs.ModePerm`: the nine POSIX permission bits. -/
def ModePerm : Nat := 0o777

/-- `fs.ModeDir`: the directory type bit of `fs.FileMode` (bit 31). -/
def ModeDir : Nat := 0x80000000

/-- `fm.Perm()` for a Go `fs.FileMode`: keeps the low nine bits. -/
def goPerm (fm : Nat) : Nat := fm &&& ModePerm

/-- `permToMasks` (permission_windows.go, lines 304-330): converts UNIX
file mode permissions to the three Windows access masks, with the
directory augmentation applied when the target is a directory. -/
def permToMasks (fm : Nat) (isDir : Bool) : Nat × Nat × Nat :=
  let mask := goPerm fm
  let owner := ((mask &&& ownerAll) <<< genericOwner) ||| ((mask &&& ownerWrite) <<< deleteOwner)
  let group := ((mask &&& groupAll) <<< genericGroup) ||| ((mask &&& groupWrite) <<< deleteGroup)
  let world := ((mask &&& worldAll) <<< genericWorld) ||| ((mask &&& worldWrite) <<< deleteWorld)
  if isDir then
    (owner ||| ((mask &&& ownerRead) <<< listDirOwner)
           ||| ((mask &&& ownerRead) <<< traverseOwner)
           ||| ((mask &&& ownerWrite) <<< deleteChildOwner)
           ||| ((mask &&& ownerWrite) >>> writeEAOwner),
     group ||| ((mask &&& groupRead) <<< listDirGroup)
           ||| ((mask &&& groupRead) <<< traverseGroup)
           ||| ((mask &&& groupWrite) <<< deleteChildGroup)
           ||| ((mask &&& groupWrite) <<< writeEAGroup),
     world ||| ((mask &&& worldRead) <<< listDirWorld)
           ||| ((mask &&& worldRead) <<< traverseWorld)
           ||| ((mask &&& worldWrite) <<< deleteChildWorld)
           ||| ((mask &&& worldWrite) <<< writeEAWorld))
  else
    (owner, group, world)

/-- `masksToPerm` (permission_windows.go, lines 334-340): converts three
Windows access masks back to the UNIX permission bits. -/
def masksToPerm (u g o : Nat) : Nat :=
  (((u >>> genericOwner) &&& ownerAll) ||| ((u >>> deleteOwner) &&& ownerWrite))
    ||| (((g >>> genericGroup) &&& groupAll) ||| ((g >>> deleteGroup) &&& groupWrite))
    ||| (((o >>> genericWorld) &&& worldAll) ||| ((o >>> deleteWorld) &&& worldWrite))

/-- The combined write mask used by the repository's tests:
`GENERIC_WRITE | DELETE`. -/
def winAccessWrite : Nat := GENERIC_WRITE ||| DELETE

/-- The full access mask used by the repository's tests:
`GENERIC_READ | GENERIC_EXECUTE | GENERIC_WRITE | DELETE`. -/
def winAccessFull : Nat := GENERIC_READ ||| GENERIC_EXECUTE ||| winAccessWrite

/-- The directory augmentation bits `permToMasks` ORs into the owner mask
of a full triad: list-directory, traverse, delete-child and write-EA. -/
def dirAugOwner : Nat :=
  (ownerRead <<< listDirOwner) ||| (ownerRead <<< traverseOwner)
    ||| (ownerWrite <<< deleteChildOwner) ||| (ownerWrite >>> writeEAOwner)

/-- The directory augmentation bits `permToMasks` ORs into the group mask
of a full triad. -/
def dirAugGroup : Nat :=
  (groupRead <<< listDirGroup) ||| (groupRead <<< traverseGroup)
    ||| (groupWrite <<< deleteChildGroup) ||| (groupWrite <<< writeEAGroup)

/-- The directory augmentation bits `permToMasks` ORs into the world mask
of a full triad. -/
def dirAugWorld : Nat :=
  (worldRead <<< listDirWorld) ||| (worldRead <<< traverseWorld)
    ||| (worldWrite <<< deleteChildWorld) ||| (worldWrite <<< writeEAWorld)

/-- `^fs.ModePerm` evaluated as a Go `uint32`: the bitwise complement of
`0o777` in 32 bits. -/
def notModePerm : Nat := 0xFFFFFE00

/-- The mode computed by `stat` (permission_windows.go, line 89):
`masksToPerm(ownerMask, groupMask, otherMask) | (fi.Mode().Perm() & ^fs.ModePerm)`,
where `nativeMode` is the mode of the file info obtained from `os.Stat`. -/
def statMode (nativeMode om gm wm : Nat) : Nat :=
  masksToPerm om gm wm ||| (goPerm nativeMode &&& notModePerm)

end Aghos

namespace Aghos

/-- C1: for every 9-bit permission triad `p` and every directory flag,
converting `p` to the three Windows masks with `permToMasks` and then
back with `masksToPerm` recovers exactly `p`; the directory augmentation
bits never pollute the recovered triad. -/
theorem masksToPerm_permToMasks_roundTrip :
    ∀ p : Nat, p < 512 →
      masksToPerm (permToMasks p false).1 (permToMasks p false).2.1
          (permToMasks p false).2.2 = p ∧
        masksToPerm (permToMasks p true).1 (permToMasks p true).2.1
          (permToMasks p true).2.2 = p := by
  decide

/-- Witness for C1 at the concrete triad `0o654`. -/
theorem masksToPerm_permToMasks_roundTrip_witness :
    masksToPerm (permToMasks 0o654 false).1 (permToMasks 0o654 false).2.1
        (permToMasks 0o654 false).2.2 = 0o654 ∧
      masksToPerm (permToMasks 0o654 true).1 (permToMasks 0o654 true).2.1
        (permToMasks 0o654 true).2.2 = 0o654 :=
  masksToPerm_permToMasks_roundTrip 0o654 (by decide)

end Aghos

namespace Aghos

/-- Masking with the nine permission bits twice is the same as masking
once, mirroring that `fm.Perm().Perm() = fm.Perm()`. -/
theorem goPerm_goPerm (m : Nat) : goPerm (goPerm m) = goPerm m := by
  unfold goPerm ModePerm
  rw [Nat.land_assoc, show ((0o777 : Nat) &&& 0o777) = 0o777 from by decide]

/-- `permToMasks` only reads the low nine bits of its input. -/
theorem permToMasks_goPerm (m : Nat) (d : Bool) :
    permToMasks (goPerm m) d = permToMasks m d := by
  unfold permToMasks
  rw [goPerm_goPerm]

/-- C4: the triad with only the group-read bit set maps to exactly the
generic READ mask on the group trustee and zero masks for owner and
other on a file; on a directory the group mask additionally carries the
list-directory bit and the traverse bit. -/
theorem permToMasks_groupRead :
    permToMasks 0o040 false = (0, GENERIC_READ, 0) ∧
      permToMasks 0o040 true =
        (0,
         GENERIC_READ ||| (groupRead <<< listDirGroup) ||| (groupRead <<< traverseGroup),
         0) := by
  decide

/-- C5 counterexample: on a directory the full triad `0o777` does NOT map
to exactly `GENERIC_READ | GENERIC_EXECUTE | GENERIC_WRITE | DELETE` per
trustee: the directory augmentation bits are also present. -/
theorem permToMasks_full_dir_not_exactly_generic :
    ¬permToMasks 0o777 true = (winAccessFull, winAccessFull, winAccessFull) := by
  decide

/-- C5 (amended): the full triad `0o777` maps every trustee to exactly
`GENERIC_READ | GENERIC_EXECUTE | GENERIC_WRITE | DELETE` when the
directory flag is false; when it is true, each trustee's mask is that
same combination ORed with that trustee's directory augmentation bits
(list-directory, traverse, delete-child, write-EA). -/
theorem permToMasks_full :
    permToMasks 0o777 false = (winAccessFull, winAccessFull, winAccessFull) ∧
      permToMasks 0o777 true =
        (winAccessFull ||| dirAugOwner,
         winAccessFull ||| dirAugGroup,
         winAccessFull ||| dirAugWorld) := by
  decide

/-- C9: only the low nine bits of a mode participate in the translation:
`permToMasks` agrees on `m` and `m &&& 0o777` for every mode and flag,
and `masksToPerm` always lands inside the nine permission bits. -/
theorem translation_low9_only :
    (∀ m : Nat, ∀ d : Bool, permToMasks m d = permToMasks (m &&& 0o777) d) ∧
      ∀ u g o : Nat, masksToPerm u g o < 512 := by
  constructor
  · intro m d
    have h : permToMasks (goPerm m) d = permToMasks m d := permToMasks_goPerm m d
    exact h.symm
  · intro u g o
    unfold masksToPerm
    have h9 : (512 : Nat) = 2 ^ 9 := by norm_num
    rw [h9]
    refine Nat.or_lt_two_pow (Nat.or_lt_two_pow ?_ ?_) ?_ <;>
      [skip; skip;
        exact Nat.or_lt_two_pow (Nat.and_lt_two_pow _ (by decide))
          (Nat.and_lt_two_pow _ (by decide))]
    · exact Nat.or_lt_two_pow (Nat.and_lt_two_pow _ (by decide))
        (Nat.and_lt_two_pow _ (by decide))
    · exact Nat.or_lt_two_pow (Nat.and_lt_two_pow _ (by decide))
        (Nat.and_lt_two_pow _ (by decide))

/-- C2: the mode computed by `stat` is just `masksToPerm` of the three
accumulated masks: the term `fi.Mode().Perm() & ^fs.ModePerm` is
identically zero, so the non-permission mode bits (such as the directory
type bit) are NOT carried over; in particular, for a directory with
native mode `ModeDir | 0o755` the resulting mode has lost the directory
type bit. -/
theorem statMode_drops_type_bits :
    (∀ nativeMode om gm wm : Nat,
        statMode nativeMode om gm wm = masksToPerm om gm wm) ∧
      statMode (ModeDir ||| 0o755) (permToMasks 0o755 true).1
          (permToMasks 0o755 true).2.1 (permToMasks 0o755 true).2.2 = 0o755 := by
  constructor
  · intro nativeMode om gm wm
    unfold statMode goPerm ModePerm notModePerm
    rw [Nat.land_assoc]
    rw [show ((0o777 : Nat) &&& 0xFFFFFE00) = 0 from by decide]
    rw [Nat.and_zero, Nat.or_zero]
  · decide

end Aghos

namespace Aghos

/-- An access-allowed entry of a DACL, reduced to what `stat` consumes:
the trustee SID (modelled abstractly as a `Nat`) and the access mask. -/
structure Ace where
  sid : Nat
  mask : Nat
deriving DecidableEq

/-- One iteration of the DACL classification loop of `stat`
(permission_windows.go, lines 79-86): an entry matching the owner SID is
ORed into the owner mask, otherwise one matching the group SID is ORed
into the group mask, otherwise the entry's mask overwrites the other
mask. -/
def classifyStep (owner group : Nat) (acc : Nat × Nat × Nat) (a : Ace) :
    Nat × Nat × Nat :=
  if a.sid = owner then (acc.1 ||| a.mask, acc.2.1, acc.2.2)
  else if a.sid = group then (acc.1, acc.2.1 ||| a.mask, acc.2.2)
  else (acc.1, acc.2.1, a.mask)

/-- The accumulated owner, group and other masks computed by the DACL
loop of `stat` (permission_windows.go, lines 70-87), starting from zero
masks. -/
def daclMasks (owner group : Nat) (aces : List Ace) : Nat × Nat × Nat :=
  aces.foldl (classifyStep owner group) (0, 0, 0)

/-- OR of the masks of a list of entries. -/
def orMasks (l : List Ace) : Nat := l.foldr (fun a acc => a.mask ||| acc) 0

/-- The mask of the last entry of `l`, or `dflt` when `l` is empty. -/
def lastMaskD (l : List Ace) (dflt : Nat) : Nat :=
  match l.getLast? with
  | some a => a.mask
  | none => dflt

/-- Prepending an entry pushes the previous default out of `lastMaskD`. -/
theorem lastMaskD_cons (a : Ace) (l : List Ace) (dflt : Nat) :
    lastMaskD (a :: l) dflt = lastMaskD l a.mask := by
  cases l with
  | nil => rfl
  | cons b m =>
    unfold lastMaskD
    rw [List.getLast?_cons_cons]
    cases hgl : (b :: m).getLast? with
    | none => exact absurd (List.getLast?_eq_none_iff.mp hgl) (by simp)
    | some x => rfl

/-- The classification fold, run from an arbitrary accumulator: owner and
group masks are ORed over the matching entries, the other mask is the
last non-matching entry's mask. -/
theorem foldl_classifyStep (owner group : Nat) (aces : List Ace) :
    ∀ acc : Nat × Nat × Nat,
      aces.foldl (classifyStep owner group) acc =
        (acc.1 ||| orMasks (aces.filter fun a => a.sid == owner),
         acc.2.1 |||
           orMasks (aces.filter fun a => !(a.sid == owner) && a.sid == group),
         lastMaskD (aces.filter fun a => !(a.sid == owner) && !(a.sid == group))
           acc.2.2) := by
  induction aces with
  | nil => intro acc; simp [orMasks, lastMaskD]
  | cons a l ih =>
    intro acc
    rw [List.foldl_cons, ih]
    by_cases h1 : a.sid = owner
    · have hb1 : (a.sid == owner) = true := beq_iff_eq.mpr h1
      rw [show classifyStep owner group acc a = (acc.1 ||| a.mask, acc.2.1, acc.2.2)
        from by unfold classifyStep; rw [if_pos h1]]
      simp [List.filter_cons, hb1, orMasks, Nat.lor_assoc]
    · have hb1 : (a.sid == owner) = false := beq_eq_false_iff_ne.mpr h1
      by_cases h2 : a.sid = group
      · have hb2 : (a.sid == group) = true := beq_iff_eq.mpr h2
        rw [show classifyStep owner group acc a = (acc.1, acc.2.1 ||| a.mask, acc.2.2)
          from by unfold classifyStep; rw [if_neg h1, if_pos h2]]
        simp [List.filter_cons, hb1, hb2, orMasks, Nat.lor_assoc]
      · have hb2 : (a.sid == group) = false := beq_eq_false_iff_ne.mpr h2
        rw [show classifyStep owner group acc a = (acc.1, acc.2.1, a.mask)
          from by unfold classifyStep; rw [if_neg h1, if_neg h2]]
        simp [List.filter_cons, hb1, hb2, lastMaskD_cons]

/-- C3: in the DACL-entry classification of `stat`, with distinct owner
and group SIDs, every entry whose SID equals the owner SID has its mask
OR-combined into the owner mask, every entry whose SID equals the group
SID has its mask OR-combined into the group mask, and the other mask is
the mask of the LAST entry matching neither (an overwrite, not an OR),
or zero when there is none. -/
theorem daclMasks_classification (owner group : Nat) (aces : List Ace)
    (h : owner ≠ group) :
    daclMasks owner group aces =
      (orMasks (aces.filter fun a => a.sid == owner),
       orMasks (aces.filter fun a => a.sid == group),
       lastMaskD (aces.filter fun a => !(a.sid == owner) && !(a.sid == group))
         0) := by
  unfold daclMasks
  rw [foldl_classifyStep]
  have hg :
      (aces.filter fun a => !(a.sid == owner) && a.sid == group) =
        aces.filter fun a => a.sid == group := by
    refine List.filter_congr fun x _ => ?_
    by_cases hx : x.sid = group
    · have hxo : x.sid ≠ owner := fun hc => h (hc.symm.trans hx)
      simp [hx, hxo, Ne.symm h]
    · simp [hx]
  rw [hg]
  simp

/-- Witness for C3: a DACL with two owner entries (ORed), one group
entry, and two entries matching neither, of which the LAST one's mask
wins. -/
theorem daclMasks_classification_witness :
    daclMasks 1 2 [⟨1, 4⟩, ⟨3, 32⟩, ⟨2, 8⟩, ⟨1, 16⟩, ⟨5, 64⟩] =
      (4 ||| 16, 8, 64) := by
  rw [daclMasks_classification 1 2 _ (by decide)]
  decide

end Aghos

namespace Aghos

/-- The three well-known SID types `chmod` resolves
(`WinCreatorOwnerSid`, `WinCreatorGroupSid`, `WinWorldSid`). -/
inductive SidType
  | creatorOwner
  | creatorGroup
  | world
deriving DecidableEq

/-- A resolved Windows trustee, abstracted to its SID value. -/
structure Trustee where
  value : Nat
deriving DecidableEq

/-- `windows.GRANT_ACCESS`. -/
def GRANT_ACCESS : Nat := 1

/-- `windows.NO_INHERITANCE`. -/
def NO_INHERITANCE : Nat := 0

/-- A `windows.EXPLICIT_ACCESS` entry as constructed by `chmod`. -/
structure ExplicitAccess where
  accessPermissions : Nat
  accessMode : Nat
  inheritance : Nat
  trustee : Trustee
deriving DecidableEq

/-- The `sidMasks` key-value list of `chmod` (permission_windows.go,
lines 107-118): the three trustees paired with their computed masks. -/
def sidMasks (perm : Nat) (isDir : Bool) : List (SidType × Nat) :=
  [(SidType.creatorOwner, (permToMasks perm isDir).1),
   (SidType.creatorGroup, (permToMasks perm isDir).2.1),
   (SidType.world, (permToMasks perm isDir).2.2)]

/-- One iteration of the entry-construction loop of `chmod` (lines
120-140): a zero mask is skipped; a failed trustee resolution appends
the trustee to the error list and continues; otherwise a GRANT entry
with no inheritance is appended. -/
def chmodStep (resolve : SidType → Option Trustee)
    (acc : List ExplicitAccess × List SidType) (sm : SidType × Nat) :
    List ExplicitAccess × List SidType :=
  if sm.2 = 0 then acc
  else
    match resolve sm.1 with
    | none => (acc.1, acc.2 ++ [sm.1])
    | some t => (acc.1 ++ [⟨sm.2, GRANT_ACCESS, NO_INHERITANCE, t⟩], acc.2)

/-- The entries and resolution failures accumulated by the loop of
`chmod`, with trustee resolution (the OS API `CreateWellKnownSid`)
modelled as the oracle `resolve`. -/
def chmodEntries (resolve : SidType → Option Trustee) (perm : Nat)
    (isDir : Bool) : List ExplicitAccess × List SidType :=
  (sidMasks perm isDir).foldl (chmodStep resolve) ([], [])

/-- The entry-construction fold, run from an arbitrary accumulator:
entries are the successfully resolved non-zero trustees, failures are
the non-zero trustees whose resolution failed. -/
theorem foldl_chmodStep (resolve : SidType → Option Trustee)
    (l : List (SidType × Nat)) :
    ∀ acc : List ExplicitAccess × List SidType,
      l.foldl (chmodStep resolve) acc =
        (acc.1 ++ (l.filter fun sm => sm.2 != 0).filterMap
            (fun sm => (resolve sm.1).map
              fun t => ⟨sm.2, GRANT_ACCESS, NO_INHERITANCE, t⟩),
         acc.2 ++
           ((l.filter fun sm => sm.2 != 0 && (resolve sm.1).isNone).map
             (fun sm => sm.1))) := by
  induction l with
  | nil => intro acc; simp
  | cons sm l ih =>
    intro acc
    rw [List.foldl_cons, ih]
    by_cases hz : sm.2 = 0
    · have hbz : (sm.2 != 0) = false := by simp [hz]
      rw [show chmodStep resolve acc sm = acc from by unfold chmodStep; rw [if_pos hz]]
      simp [List.filter_cons, hbz]
    · have hbz : (sm.2 != 0) = true := by simp [hz]
      cases hr : resolve sm.1 with
      | none =>
        rw [show chmodStep resolve acc sm = (acc.1, acc.2 ++ [sm.1]) from by
          unfold chmodStep; rw [if_neg hz, hr]]
        simp [List.filter_cons, hbz, hr]
      | some t =>
        rw [show chmodStep resolve acc sm =
            (acc.1 ++ [⟨sm.2, GRANT_ACCESS, NO_INHERITANCE, t⟩], acc.2) from by
          unfold chmodStep; rw [if_neg hz, hr]]
        simp [List.filter_cons, hbz, hr]

/-- C6: when every trustee resolves, the entry list `chmod` constructs
is exactly one GRANT entry per trustee with a non-zero computed mask, in
order, and no entry for a zero-mask trustee; every constructed entry
uses GRANT semantics with a non-zero mask, and the zero permission value
yields an empty entry list. -/
theorem chmodEntries_exact (resolve : SidType → Option Trustee) (perm : Nat)
    (d : Bool) (hres : ∀ s, (resolve s).isSome) :
    (chmodEntries resolve perm d).1 =
        ((sidMasks perm d).filter fun sm => sm.2 != 0).map
          (fun sm =>
            ⟨sm.2, GRANT_ACCESS, NO_INHERITANCE,
              (resolve sm.1).get (hres sm.1)⟩) ∧
      (∀ e ∈ (chmodEntries resolve perm d).1,
          e.accessMode = GRANT_ACCESS ∧ e.accessPermissions ≠ 0) ∧
      (chmodEntries resolve 0 d).1 = [] := by
  have hmap :
      ∀ m : List (SidType × Nat),
        (m.filterMap fun sm => (resolve sm.1).map
            fun t => (⟨sm.2, GRANT_ACCESS, NO_INHERITANCE, t⟩ : ExplicitAccess)) =
          m.map (fun sm =>
            ⟨sm.2, GRANT_ACCESS, NO_INHERITANCE, (resolve sm.1).get (hres sm.1)⟩) := by
    intro m
    induction m with
    | nil => rfl
    | cons x xs ih =>
      have hx := hres x.1
      cases hrx : resolve x.1 with
      | none => rw [hrx] at hx; simp at hx
      | some t => simp [List.filterMap_cons, List.map_cons, hrx, ih]
  have hentries :
      (chmodEntries resolve perm d).1 =
        ((sidMasks perm d).filter fun sm => sm.2 != 0).map
          (fun sm =>
            ⟨sm.2, GRANT_ACCESS, NO_INHERITANCE,
              (resolve sm.1).get (hres sm.1)⟩) := by
    unfold chmodEntries
    rw [foldl_chmodStep]
    simp [hmap]
  refine ⟨hentries, ?_, ?_⟩
  · intro e he
    rw [hentries] at he
    obtain ⟨sm, hsm, rfl⟩ := List.mem_map.mp he
    refine ⟨rfl, ?_⟩
    have := (List.mem_filter.mp hsm).2
    simpa using this
  · have h0 : permToMasks 0 d = (0, 0, 0) := by cases d <;> decide
    simp [chmodEntries, sidMasks, h0, List.foldl, chmodStep]

/-- Witness for C6 at `perm = 0o640` on a file with an all-succeeding
resolution oracle: owner and group get one GRANT entry each, the
zero-mask world trustee gets none. -/
theorem chmodEntries_exact_witness :
    (chmodEntries (fun _ => some ⟨1⟩) 0o640 false).1 =
        ((sidMasks 0o640 false).filter fun sm => sm.2 != 0).map
          (fun sm =>
            ⟨sm.2, GRANT_ACCESS, NO_INHERITANCE,
              ((fun _ => some (⟨1⟩ : Trustee)) sm.1).get (by simp)⟩) ∧
      (∀ e ∈ (chmodEntries (fun _ => some ⟨1⟩) 0o640 false).1,
          e.accessMode = GRANT_ACCESS ∧ e.accessPermissions ≠ 0) ∧
      (chmodEntries (fun _ => some ⟨1⟩) 0 false).1 = [] :=
  chmodEntries_exact (fun _ => some ⟨1⟩) 0o640 false (fun _ => by simp)

end Aghos

namespace Aghos

/-- The observable outcome of `chmod` (permission_windows.go, lines
98-161). -/
inductive ChmodOutcome
  | statError
  | trusteeError (failed : List SidType)
  | aclError
  | setError
  | ok
deriving DecidableEq

/-- The control flow of `chmod`, with the OS calls modelled as oracles:
`statRes` is the result of the initial `os.Stat` (`some isDir` on
success), `resolve` resolves well-known trustees, `aclOk` tells whether
`ACLFromEntries` succeeds and `setOk` whether `SetNamedSecurityInfo`
succeeds.  The second component of the result records whether
`SetNamedSecurityInfo` was invoked, i.e. whether any security
information was written to the object. -/
def chmodRun (statRes : Option Bool) (resolve : SidType → Option Trustee)
    (aclOk : Bool) (setOk : Bool) (perm : Nat) : ChmodOutcome × Bool :=
  match statRes with
  | none => (.statError, false)
  | some isDirFlag =>
    let built := chmodEntries resolve perm isDirFlag
    if built.2 ≠ [] then (.trusteeError built.2, false)
    else if aclOk = false then (.aclError, false)
    else if setOk then (.ok, true)
    else (.setError, true)

/-- C7: if resolving any non-zero-mask trustee fails during `chmod`, the
loop still attempts every remaining non-zero trustee -- the reported
failure list is exactly all non-zero trustees whose resolution failed,
in order -- and `chmod` returns that combined error before
`SetNamedSecurityInfo` is invoked, so no security information is
written. -/
theorem chmod_trustee_failure (statRes : Option Bool)
    (resolve : SidType → Option Trustee) (aclOk setOk : Bool) (perm : Nat)
    (d : Bool) (hstat : statRes = some d)
    (hfail : ∃ sm ∈ sidMasks perm d, sm.2 ≠ 0 ∧ resolve sm.1 = none) :
    chmodRun statRes resolve aclOk setOk perm =
      (.trusteeError
        (((sidMasks perm d).filter
            fun sm => sm.2 != 0 && (resolve sm.1).isNone).map
          (fun sm => sm.1)),
       false) := by
  obtain ⟨sm, hmem, hne, hnone⟩ := hfail
  have herrs :
      (chmodEntries resolve perm d).2 =
        ((sidMasks perm d).filter
            fun sm => sm.2 != 0 && (resolve sm.1).isNone).map
          (fun sm => sm.1) := by
    unfold chmodEntries
    rw [foldl_chmodStep]
    simp
  have hnonempty : (chmodEntries resolve perm d).2 ≠ [] := by
    rw [herrs]
    have hsm : sm ∈ (sidMasks perm d).filter
        fun sm => sm.2 != 0 && (resolve sm.1).isNone := by
      refine List.mem_filter.mpr ⟨hmem, ?_⟩
      simp [hne, hnone]
    intro hcontra
    rw [List.map_eq_nil_iff] at hcontra
    rw [hcontra] at hsm
    exact absurd hsm (List.not_mem_nil sm)
  rw [hstat]
  unfold chmodRun
  simp only [if_pos hnonempty]
  rw [herrs]

/-- Witness for C7: with `perm = 0o007` on a file only the world trustee
has a non-zero mask; a resolution oracle that fails exactly on the world
trustee makes `chmod` report that single failure and write nothing. -/
theorem chmod_trustee_failure_witness :
    chmodRun (some false)
        (fun s => if s = SidType.world then none else some ⟨7⟩) true true
        0o007 =
      (ChmodOutcome.trusteeError [SidType.world], false) := by
  rw [chmod_trustee_failure (some false)
    (fun s => if s = SidType.world then none else some ⟨7⟩) true true
    0o007 false rfl
    ⟨(SidType.world, (permToMasks 0o007 false).2.2), by decide, by decide,
      by decide⟩]
  decide

end Aghos

namespace Aghos

/-- A Go error value, as far as the permission layer distinguishes
them: a base error, a `fmt.Errorf("label: %w", e)` wrapping, or the
combination `errors.WithDeferred(main, deferredErr)` of a returned and a
deferred error. -/
inductive GoError
  | base (tag : String)
  | wrap (label : String) (e : GoError)
  | withDeferred (main deferredErr : GoError)
deriving DecidableEq

/-- `errors.WithDeferred` on optional errors: the deferred error is
attached to the returned one when both are present, and either one is
passed through alone. -/
def withDeferredOpt (returned deferredErr : Option GoError) : Option GoError :=
  match returned, deferredErr with
  | e, none => e
  | none, some d2 => some d2
  | some e, some d2 => some (.withDeferred e d2)

/-- The control flow of `mkdir` (permission_windows.go, lines 167-185),
with the OS calls as oracles: `absErr` is the failure of
`filepath.Abs`, `createErr` of `os.Mkdir`, `chmodErr` of the `chmod`
call, `removeErr` of the cleanup `os.Remove`.  The second component of
the result records whether `os.Remove` was invoked.  The deferred
function attaches the removal outcome to the error whenever the
function is about to return a non-nil error after the directory was
created. -/
def mkdirRun (absErr createErr chmodErr removeErr : Option GoError) :
    Option GoError × Bool :=
  match absErr with
  | some e => (some (.wrap "computing absolute path" e), false)
  | none =>
    match createErr with
    | some e => (some (.wrap "creating directory" e), false)
    | none =>
      match chmodErr with
      | none => (none, false)
      | some e => (withDeferredOpt (some e) removeErr, true)

/-- C8: if `mkdir` creates the directory but the subsequent `chmod`
fails, the just-created directory is removed and a non-nil error is
returned; a failing removal is attached to that error rather than
dropped; and if creation itself fails, no removal is attempted. -/
theorem mkdir_cleanup_on_chmod_failure :
    ∀ chmodE createE : GoError, ∀ removeErr chE remE : Option GoError,
      (mkdirRun none none (some chmodE) removeErr).2 = true ∧
        (mkdirRun none none (some chmodE) removeErr).1 ≠ none ∧
        mkdirRun none none (some chmodE) none = (some chmodE, true) ∧
        (∀ rE : GoError,
          mkdirRun none none (some chmodE) (some rE) =
            (some (.withDeferred chmodE rE), true)) ∧
        (mkdirRun none (some createE) chE remE).2 = false := by
  intro chmodE createE removeErr chE remE
  refine ⟨?_, ?_, rfl, fun rE => rfl, rfl⟩
  · cases removeErr <;> rfl
  · cases removeErr <;> simp [mkdirRun, withDeferredOpt]

end Aghos

namespace Aghos

/-- The outcome of the `stat` call at the start of `openFile`: the file
exists, the error matches `os.ErrNotExist`, or another error occurred. -/
inductive StatOutcome
  | found
  | notExist
  | otherError
deriving DecidableEq

/-- `os.O_CREATE` on Windows. -/
def O_CREATE : Nat := 0x40

/-- `os.O_WRONLY` on Windows. -/
def O_WRONLY : Nat := 0x1

/-- `os.O_TRUNC` on Windows. -/
def O_TRUNC : Nat := 0x200

/-- The permission-relevant control flow of `openFile`
(permission_windows.go, lines 221-238): the first component records
whether the function returns early with a wrapped stat error, the
second whether `chmod(name, perm)` is applied to the path.  Without the
create flag the function directly delegates to `os.OpenFile`; with it,
`chmod` is deferred only when `stat` reported that the file does not
exist, and an existing file is opened without touching its security
descriptor. -/
def openFileRun (flag : Nat) (st : StatOutcome) : Bool × Bool :=
  if flag &&& O_CREATE = 0 then (false, false)
  else
    match st with
    | .found => (false, false)
    | .notExist => (false, true)
    | .otherError => (true, false)

/-- `writeFile` (permission_windows.go, lines 205-218) opens with
`os.O_CREATE | os.O_WRONLY | os.O_TRUNC`. -/
def writeFileRun (st : StatOutcome) : Bool × Bool :=
  openFileRun (O_CREATE ||| O_WRONLY ||| O_TRUNC) st

/-- C10: `openFile` applies `chmod` if and only if the create flag is
set and the preceding `stat` reported the file missing; in particular
an existing file keeps its security descriptor untouched, both for
`openFile` and for `writeFile`. -/
theorem openFile_chmod_only_when_created :
    (∀ flag : Nat, ∀ st : StatOutcome,
        (openFileRun flag st).2 = true ↔
          flag &&& O_CREATE ≠ 0 ∧ st = .notExist) ∧
      (∀ st : StatOutcome,
        (writeFileRun st).2 = true ↔ st = .notExist) := by
  constructor
  · intro flag st
    by_cases hf : flag &&& O_CREATE = 0
    · simp [openFileRun, hf]
    · cases st <;> simp [openFileRun, hf]
  · intro st
    have hflag : (O_CREATE ||| O_WRONLY ||| O_TRUNC) &&& O_CREATE ≠ 0 := by
      decide
    cases st <;> simp [writeFileRun, openFileRun, hflag]

end Aghos
